import Mathlib

/-
  Verification of the normalization / deduplication pipeline of the
  property-search repository (src/src/nodes/normalizer.py, src/src/models.py,
  src/src/nodes/zillow_node.py, src/src/config.py).

  The Python code is shallowly embedded: Python runtime values become the
  inductive type `PyVal`, fallible Python operations (float(), .get on
  non-dicts, .upper on non-strings, `in` on non-containers) return
  `Except PyErr`, and pydantic validation of the `Listing` model becomes
  `validateCore`.  `datetime.now` is embedded as an explicit clock parameter.
-/

set_option maxHeartbeats 1000000
set_option maxRecDepth 16384
set_option exponentiation.threshold 1100

namespace ZillowAgent

/-- Python runtime values as produced by the scraping provider (JSON-like,
plus Python `None`/`bool` distinctions).  Floats are modelled as rationals;
NaN/infinity are outside the model. -/
inductive PyVal where
  | none
  | bool (b : Bool)
  | int (n : Int)
  | float (q : Rat)
  | str (s : String)
  | list (l : List PyVal)
  | dict (d : List (String × PyVal))

/-- A Python dict (association list; the dicts we build have distinct keys). -/
abbrev PyDict := List (String × PyVal)

/-- Kinds of Python exceptions raised by the embedded operations. -/
inductive PyErr where
  | valueError
  | typeError
  | attributeError
  | nameError
  | overflowError
  deriving DecidableEq

instance {ε α : Type} [DecidableEq ε] [DecidableEq α] : DecidableEq (Except ε α) := fun
  | .ok a, .ok b => decidable_of_iff (a = b) (by simp)
  | .ok _, .error _ => Decidable.isFalse (by simp)
  | .error _, .ok _ => Decidable.isFalse (by simp)
  | .error a, .error b => decidable_of_iff (a = b) (by simp)

/-- Python truthiness (`bool(v)`). -/
def truthy : PyVal → Bool
  | .none => false
  | .bool b => b
  | .int n => n != 0
  | .float q => q != 0
  | .str s => s != ""
  | .list l => !l.isEmpty
  | .dict d => !d.isEmpty

/-- `isinstance(v, dict)`. -/
def isDictV : PyVal → Bool
  | .dict _ => true
  | _ => false

/-- The underlying association list of a dict value (only used under an
`isDictV` guard). -/
def asDict : PyVal → PyDict
  | .dict d => d
  | _ => []

/-- `v is None`. -/
def isNoneV : PyVal → Bool
  | .none => true
  | _ => false

/-- `k in d` for a dict. -/
def hasKey (d : PyDict) (k : String) : Bool :=
  d.any (fun p => p.1 == k)

/-- `d.get(k, dflt)` on a dict. -/
def dgetD (d : PyDict) (k : String) (dflt : PyVal) : PyVal :=
  match d.find? (fun p => p.1 == k) with
  | Option.some p => p.2
  | Option.none => dflt

/-- `d.get(k)` on a dict (default `None`). -/
def dget (d : PyDict) (k : String) : PyVal :=
  dgetD d k .none

/-- `v.get(k, dflt)` on an arbitrary value: raises `AttributeError` unless
`v` is a dict (as in Python for the value shapes in scope). -/
def pyGet (v : PyVal) (k : String) (dflt : PyVal) : Except PyErr PyVal :=
  match v with
  | .dict d => .ok (dgetD d k dflt)
  | _ => .error .attributeError

/-- Does one character list start with another (`l` starts with `pat`)? -/
def listStarts : List Char → List Char → Bool
  | [], _ => true
  | _ :: _, [] => false
  | a :: as, b :: bs => a == b && listStarts as bs

/-- Substring occurrence on character lists (Python `pat in s` for strings). -/
def listHasSub (pat : List Char) : List Char → Bool
  | [] => pat.isEmpty
  | c :: cs => listStarts pat (c :: cs) || listHasSub pat cs

/-- Python `pat in s` for strings. -/
def hasSubstr (pat s : String) : Bool :=
  listHasSub pat.toList s.toList

/-- Python `s.startswith(p)`. -/
def pyStartsWith (s p : String) : Bool :=
  listStarts p.toList s.toList

/-- ASCII whitespace as matched by Python's `str.strip` / regex `\s`. -/
def isPySpace (c : Char) : Bool :=
  c == ' ' || c == '\t' || c == '\n' || c == '\r' || c == '\x0b' || c == '\x0c'

/-- Python `s.strip()`. -/
def pyStrip (s : String) : String :=
  String.mk (((s.toList.dropWhile isPySpace).reverse.dropWhile isPySpace).reverse)

/-- Python `s.lower()` (ASCII; the inputs in scope are ASCII). -/
def pyLower (s : String) : String :=
  String.mk (s.toList.map Char.toLower)

/-- Python `v.upper()`: raises `AttributeError` unless `v` is a string. -/
def pyUpper (v : PyVal) : Except PyErr String :=
  match v with
  | .str s => .ok (String.mk (s.toList.map Char.toUpper))
  | _ => .error .attributeError

/-- Value of a digit string (most significant digit first). -/
def digitsVal (l : List Char) : Nat :=
  l.foldl (fun a c => a * 10 + (c.toNat - 48)) 0

/-- `str(n)` for a Python int. -/
def intStr (n : Int) : String := toString n

/-- `str(v)` for a Python value.  Faithful for `None`, bools, ints and
strings (the only cases the pipeline's `str()` calls meet in the theorems
below); floats and containers get a simplified rendering. -/
def pyStr : PyVal → String
  | .none => "None"
  | .bool true => "True"
  | .bool false => "False"
  | .int n => intStr n
  | .float q => toString q.num ++ "." ++ toString q.den
  | .str s => s
  | .list _ => "[...]"
  | .dict _ => "\x7b...\x7d"

/-- Truncation toward zero (`int()` applied to a finite float). -/
def truncToward0 (q : Rat) : Int :=
  if q < 0 then -((q.num.natAbs / q.den : Nat) : Int)
  else ((q.num.natAbs / q.den : Nat) : Int)

/-- Python floats are IEEE-754 doubles.  `float()` of a decimal literal
whose exact magnitude is at least `2^1024 − 2^970` (the round-to-nearest
overflow threshold: the midpoint above the largest finite double) returns
infinity silently.  The embedding keeps parsed literal values as exact
rationals and applies this threshold where the code converts the float
with `int()`, which raises `OverflowError` on an infinite float. -/
def floatOverflowBound : Rat := ((2 ^ 1024 - 2 ^ 970 : Nat) : Rat)

/-- `|q|` (spelled out so it evaluates by kernel reduction). -/
def ratAbs (q : Rat) : Rat := if q < 0 then -q else q

/-- Does the exactly-parsed literal value land on a float that overflowed
to infinity (so that a subsequent `int()` raises `OverflowError`)? -/
def pyFloatOverflows (q : Rat) : Bool := floatOverflowBound ≤ ratAbs q

/-- Exact value of a decimal literal with integer digits `ip`, fraction
digits `fp`, a sign, and a decimal exponent `e`:
`±(ip.fp) × 10^e`, computed at the integer level so that it evaluates by
kernel reduction. -/
def decLitVal (neg : Bool) (ip fp : List Char) (e : Int) : Rat :=
  let mant : Int := (digitsVal ip * 10 ^ fp.length + digitsVal fp : Nat)
  let mant : Int := if neg then -mant else mant
  let scale : Int := e - fp.length
  if 0 ≤ scale then ((mant * 10 ^ scale.toNat : Int) : Rat)
  else mkRat mant (10 ^ (-scale).toNat)

/-- Parse a mantissa `digits [ "." digits ]` at the front of a character
list; returns the digit lists and the unconsumed rest.  Fails when no
digit is present. -/
def parseMantissa (l : List Char) : Option ((List Char × List Char) × List Char) :=
  let ip := l.takeWhile Char.isDigit
  match l.dropWhile Char.isDigit with
  | c :: r2 =>
    if c = '.' then
      if ip.isEmpty && (r2.takeWhile Char.isDigit).isEmpty then Option.none
      else Option.some ((ip, r2.takeWhile Char.isDigit), r2.dropWhile Char.isDigit)
    else if ip.isEmpty then Option.none
    else Option.some ((ip, []), c :: r2)
  | [] =>
    if ip.isEmpty then Option.none
    else Option.some ((ip, []), [])

/-- Strip surrounding whitespace from a character list (Python `float()`
ignores surrounding whitespace). -/
def stripSpaces (l : List Char) : List Char :=
  ((l.dropWhile isPySpace).reverse.dropWhile isPySpace).reverse

/-- Split an optional leading sign off a numeric literal; `true` means
negative. -/
def splitSign : List Char → Bool × List Char
  | c :: r =>
    if c = '+' then (false, r)
    else if c = '-' then (true, r)
    else (false, c :: r)
  | [] => (false, [])

/-- The optional exponent tail of a float literal (after the `e`/`E`). -/
def parseExpTail (sl1 : Bool) (ip fp : List Char) (r : List Char) : Option Rat :=
  let er := splitSign r
  let ed := er.2.takeWhile Char.isDigit
  let rr := er.2.dropWhile Char.isDigit
  if ed.isEmpty || !rr.isEmpty then Option.none
  else
    Option.some (decLitVal sl1 ip fp
      (if er.1 then -(digitsVal ed : Int) else (digitsVal ed : Int)))

/-- Python `float(s)` on a string: optional surrounding whitespace, optional
sign, mantissa, optional exponent.  Simplified: `inf`/`nan`/underscore
literals are outside the model (never produced by the pipeline's inputs in
the theorems below). -/
def parseFloatLit (s : String) : Option Rat :=
  let sl := splitSign (stripSpaces s.toList)
  match parseMantissa sl.2 with
  | Option.none => Option.none
  | Option.some ((ip, fp), rest) =>
    match rest with
    | [] => Option.some (decLitVal sl.1 ip fp 0)
    | 'e' :: r => parseExpTail sl.1 ip fp r
    | 'E' :: r => parseExpTail sl.1 ip fp r
    | _ => Option.none

/-- Python `float(v)`: int/float/bool pass through, strings are parsed
(`ValueError` on failure), all other types raise `TypeError`. -/
def pyFloat : PyVal → Except PyErr Rat
  | .bool b => .ok (if b then 1 else 0)
  | .int n => .ok (n : Rat)
  | .float q => .ok q
  | .str s =>
    match parseFloatLit s with
    | Option.some q => .ok q
    | Option.none => .error .valueError
  | _ => .error .typeError

/-- Fall-through of `_extract_coordinates`: the direct top-level
`latitude` / `longitude` fields. -/
def directCoordFields (d : PyDict) : Except PyErr (Option Rat × Option Rat) :=
  let lat := dget d "latitude"
  let lon := dget d "longitude"
  if !isNoneV lat && !isNoneV lon then do
    let lq ← pyFloat lat
    let gq ← pyFloat lon
    pure (Option.some lq, Option.some gq)
  else
    pure (Option.none, Option.none)

/-- `_extract_coordinates(item)`: prefers a truthy `latLong` sub-object
(raising `AttributeError` if it is not a mapping), falling back to the
direct fields; `float()` conversions can raise. -/
def extractCoordinates (d : PyDict) : Except PyErr (Option Rat × Option Rat) :=
  let latLong := dgetD d "latLong" (.dict [])
  if truthy latLong then
    match latLong with
    | .dict dl =>
      let lat := dget dl "latitude"
      let lon := dget dl "longitude"
      if !isNoneV lat && !isNoneV lon then do
        let lq ← pyFloat lat
        let gq ← pyFloat lon
        pure (Option.some lq, Option.some gq)
      else
        directCoordFields d
    | _ => .error .attributeError
  else
    directCoordFields d

/-- The optional `\$?` of the range-marker regex: consume one leading
dollar sign when present. -/
def stripDollar : List Char → List Char
  | c :: r => if c = '$' then r else c :: r
  | [] => []

/-- After the literal `from`: skip `\s*`, the optional `$`, then require a
nonempty run of `[0-9,]` (the capture group). -/
def fromDigitsAfter (rest : List Char) : Option String :=
  if ((stripDollar (rest.dropWhile isPySpace)).takeWhile
      (fun c => c.isDigit || c == ',')).isEmpty then Option.none
  else Option.some (String.mk ((stripDollar (rest.dropWhile isPySpace)).takeWhile
    (fun c => c.isDigit || c == ',')))

/-- The regex search `re.search(r'from\s*\$?([0-9,]+)', s)` (on the
already-lowercased string): try to match at the head of the list. -/
def matchFromAt (l : List Char) : Option String :=
  match l with
  | 'f' :: 'r' :: 'o' :: 'm' :: rest => fromDigitsAfter rest
  | _ => Option.none

/-- `re.search` scanning: first position where the `from` pattern matches,
returning capture group 1. -/
def searchFromNum : List Char → Option String
  | [] => Option.none
  | c :: cs =>
    match matchFromAt (c :: cs) with
    | Option.some g => Option.some g
    | Option.none => searchFromNum cs

/-- `re.sub(r'[^\d]', '', s)`. -/
def keepDigits (s : String) : String :=
  String.mk (s.toList.filter Char.isDigit)

/-- `re.sub(r'[^\d.]', '', s)`. -/
def keepDigitsDots (s : String) : String :=
  String.mk (s.toList.filter (fun c => c.isDigit || c == '.'))

/-- The `price_str` computed by `_extract_price` for a string input:
the from-branch keeps the digits of the captured group, the plain branch
keeps digits and dots of the whole string. -/
def priceStrOf (s : String) : String :=
  if hasSubstr "from" (pyLower s) then
    match searchFromNum (pyLower s).toList with
    | Option.some grp => keepDigits grp
    | Option.none => keepDigitsDots s
  else keepDigitsDots s

/-- `_extract_price(price_data)`: numeric passthrough via `int()`,
string stripping with a special case for a "from" range marker, `None`
on parse failure — the `try` catches `ValueError` only, so when
`float(price_str)` overflows to infinity the `int()` raises an uncaught
`OverflowError` out of the extractor.  Python `bool` is an `int`
subclass, hence the bool case. -/
def extractPrice (v : PyVal) : Except PyErr (Option Int) :=
  match v with
  | .none => .ok Option.none
  | .bool b => .ok (Option.some (if b then 1 else 0))
  | .int n => .ok (Option.some n)
  | .float q => .ok (Option.some (truncToward0 q))
  | .str s =>
    match parseFloatLit (priceStrOf s) with
    | Option.some q =>
      if pyFloatOverflows q then .error .overflowError
      else .ok (Option.some (truncToward0 q))
    | Option.none => .ok Option.none
  | _ => .ok Option.none

/-- The regex search `re.search(r'(\d+(?:\.\d+)?)', s)`: value of the first
decimal-number token. -/
def firstNumToken : List Char → Option Rat
  | [] => Option.none
  | c :: cs =>
    if c.isDigit then
      let ip := (c :: cs).takeWhile Char.isDigit
      let r1 := (c :: cs).dropWhile Char.isDigit
      match r1 with
      | '.' :: r2 =>
        let fp := r2.takeWhile Char.isDigit
        if fp.isEmpty then Option.some (decLitVal false ip [] 0)
        else Option.some (decLitVal false ip fp 0)
      | _ => Option.some (decLitVal false ip [] 0)
    else firstNumToken cs

/-- `_extract_number(number_data, float_allowed)`: numeric passthrough
(truncating via `int()` unless floats are allowed); for strings, the
first decimal-number token by pattern match; `None` otherwise.  The
`int(num)` is unguarded, so a token whose float overflowed to infinity
raises `OverflowError` when `float_allowed` is false; with `float_allowed`
the infinite float is returned without raising (the embedding keeps the
exact rational value in that no-throw case). -/
def extractNumber (v : PyVal) (float_allowed : Bool) : Except PyErr (Option Rat) :=
  match v with
  | .none => .ok Option.none
  | .bool b => .ok (Option.some (if b then (1 : Rat) else 0))
  | .int n => .ok (Option.some (n : Rat))
  | .float q => .ok (Option.some (if float_allowed then q else (truncToward0 q : Rat)))
  | .str s =>
    match firstNumToken s.toList with
    | Option.some q =>
      if float_allowed then .ok (Option.some q)
      else if pyFloatOverflows q then .error .overflowError
      else .ok (Option.some (truncToward0 q : Rat))
    | Option.none => .ok Option.none
  | _ => .ok Option.none

/-- The fixed key order probed by `_extract_address` on structured
address objects. -/
def addressKeys : List String :=
  ["streetAddress", "address", "line1", "city", "state", "zip"]

/-- `", ".join(parts)`. -/
def joinComma : List String → String
  | [] => ""
  | [s] => s
  | s :: rest => s ++ ", " ++ joinComma rest

/-- `_extract_address(address_data)`: strings pass through stripped;
structured objects concatenate their present, truthy sub-fields in fixed
order; anything else is stringified when truthy. -/
def extractAddress (v : PyVal) : Option String :=
  match v with
  | .none => Option.none
  | .str s => Option.some (pyStrip s)
  | .dict d =>
    let parts := (addressKeys.filter (fun k => hasKey d k && truthy (dgetD d k .none))).map
      (fun k => pyStr (dgetD d k .none))
    if parts.isEmpty then Option.none else Option.some (joinComma parts)
  | w => if truthy w then Option.some (pyStr w) else Option.none

/-- `_extract_url(url_data)`: absolute URLs pass through; path-only URLs
get the provider origin prefixed; other scheme-less strings get a bare
`https://` prefixed. -/
def extractUrl (v : PyVal) : Option String :=
  match v with
  | .none => Option.none
  | .str s =>
    let url := pyStrip s
    let url :=
      if url != "" && !(pyStartsWith url "http://" || pyStartsWith url "https://") then
        if pyStartsWith url "/" then "https://www.zillow.com" ++ url else "https://" ++ url
      else url
    if url != "" then Option.some url else Option.none
  | w => if truthy w then Option.some (pyStr w) else Option.none

/-- The normalized data dict assembled by `_process_building` /
`_process_individual_property` and passed to `Listing(**data)`.  Fields the
building path does not set default to the pydantic defaults (`None`).
`home_type`, `home_status` and `broker_name` are raw passthroughs and keep
type `PyVal`; the extracted fields carry the types the extractors
produce. -/
structure NormData where
  zpid : String
  building : Bool
  listing_type : String
  home_type : PyVal := .none
  home_status : PyVal := .none
  sale_price : Option Int := Option.none
  rental_price : Option Int := Option.none
  zestimate : Option Rat := Option.none
  rent_zestimate : Option Rat := Option.none
  address : Option String := Option.none
  beds : Option Rat := Option.none
  baths : Option Rat := Option.none
  living_area : Option Rat := Option.none
  lot_size : Option String := Option.none
  year_built : Option Rat := Option.none
  latitude : Option Rat := Option.none
  longitude : Option Rat := Option.none
  source_url : Option String := Option.none
  broker_name : PyVal := .none
  days_on_zillow : Option Rat := Option.none

/-- The validated field content of a `Listing` (pydantic model in
`src/src/models.py`) minus the `timestamp` system field.  `days_on_zillow`
is passed by the individual path but is not a declared model field, so
pydantic (default `extra='ignore'`) drops it. -/
structure ListingCore where
  zpid : Option String
  listing_type : Option String
  home_type : Option String
  home_status : Option String
  sale_price : Option Int
  rental_price : Option Int
  zestimate : Option Int
  rent_zestimate : Option Int
  address : Option String
  beds : Option Int
  baths : Option Rat
  living_area : Option Int
  lot_size : Option String
  year_built : Option Int
  latitude : Option Rat
  longitude : Option Rat
  source_url : Option String
  broker_name : Option String
  building : Bool
  deriving DecidableEq

/-- A validated `Listing`: the model fields plus the creation-time
`timestamp` (`default_factory=datetime.now`), embedded as an abstract
clock reading. -/
structure Listing where
  zpid : Option String
  listing_type : Option String
  home_type : Option String
  home_status : Option String
  sale_price : Option Int
  rental_price : Option Int
  zestimate : Option Int
  rent_zestimate : Option Int
  address : Option String
  beds : Option Int
  baths : Option Rat
  living_area : Option Int
  lot_size : Option String
  year_built : Option Int
  latitude : Option Rat
  longitude : Option Rat
  source_url : Option String
  broker_name : Option String
  building : Bool
  timestamp : Nat
  deriving DecidableEq

/-- Attach a timestamp to validated field content. -/
def Listing.ofCore (c : ListingCore) (t : Nat) : Listing :=
  { zpid := c.zpid, listing_type := c.listing_type, home_type := c.home_type,
    home_status := c.home_status, sale_price := c.sale_price,
    rental_price := c.rental_price, zestimate := c.zestimate,
    rent_zestimate := c.rent_zestimate, address := c.address, beds := c.beds,
    baths := c.baths, living_area := c.living_area, lot_size := c.lot_size,
    year_built := c.year_built, latitude := c.latitude,
    longitude := c.longitude, source_url := c.source_url,
    broker_name := c.broker_name, building := c.building, timestamp := t }

/-- pydantic `Optional[str]`: `None` and strings are accepted, any other
value is a validation error (pydantic v2 does not coerce e.g. int to str). -/
def optStrOfPy : PyVal → Option (Option String)
  | .none => Option.some Option.none
  | .str s => Option.some (Option.some s)
  | _ => Option.none

/-- pydantic `Optional[int]` receiving a Python int-or-float: integral
values pass, fractional ones are rejected. -/
def optIntOfRat : Option Rat → Option (Option Int)
  | Option.none => Option.some Option.none
  | Option.some q => if q.den == 1 then Option.some (Option.some q.num) else Option.none

/-- Simplified model of pydantic's `HttpUrl` check: an `http(s)` scheme
followed by a nonempty remainder.  The claims below never depend on the
finer points of URL parsing. -/
def validHttpUrl (s : String) : Bool :=
  (pyStartsWith s "http://" && s.length > 7) || (pyStartsWith s "https://" && s.length > 8)

/-- pydantic `Optional[HttpUrl]`. -/
def optUrlOfStr : Option String → Option (Option String)
  | Option.none => Option.some Option.none
  | Option.some s => if validHttpUrl s then Option.some (Option.some s) else Option.none

/-- pydantic validation of `Listing(**data)`: checks the `Literal`
constraint on `listing_type`, the `Optional[str]` passthrough fields, the
integer fields and the URL field; `None` on a `ValidationError`. -/
def validateCore (nd : NormData) : Option ListingCore := do
  let ht ← optStrOfPy nd.home_type
  let hs ← optStrOfPy nd.home_status
  let bn ← optStrOfPy nd.broker_name
  let ze ← optIntOfRat nd.zestimate
  let rz ← optIntOfRat nd.rent_zestimate
  let bd ← optIntOfRat nd.beds
  let la ← optIntOfRat nd.living_area
  let yb ← optIntOfRat nd.year_built
  let su ← optUrlOfStr nd.source_url
  if nd.listing_type == "sale" || nd.listing_type == "rental" then
    Option.some
      { zpid := Option.some nd.zpid, listing_type := Option.some nd.listing_type,
        home_type := ht, home_status := hs, sale_price := nd.sale_price,
        rental_price := nd.rental_price, zestimate := ze, rent_zestimate := rz,
        address := nd.address, beds := bd, baths := nd.baths, living_area := la,
        lot_size := nd.lot_size, year_built := yb, latitude := nd.latitude,
        longitude := nd.longitude, source_url := su, broker_name := bn,
        building := nd.building }
  else Option.none

/-- `Listing(**normalized_data)` at clock reading `t`. -/
def mkListing (t : Nat) (nd : NormData) : Option Listing :=
  (validateCore nd).map (fun c => Listing.ofCore c t)

/-- Python truthiness of the extracted address (`None` and `""` falsy). -/
def optStrTruthy : Option String → Bool
  | Option.none => false
  | Option.some s => s != ""

/-- Python truthiness of the extracted price (`None` and `0` falsy). -/
def optIntTruthy : Option Int → Bool
  | Option.none => false
  | Option.some n => n != 0

/-- The dict literal returned by `_process_building`: representative
(minimum) bed/bath/area values; the extracted price lands on exactly one
side of the sale/rental split. -/
def mkBuildingData (d : PyDict) (address : String) (price : Option Int)
    (lat lon : Option Rat) (is_rental : Bool)
    (bed bath area : Option Rat) : NormData :=
  { zpid := pyStr (dgetD d "buildingId" (.str ""))
    building := true
    listing_type := if is_rental then "rental" else "sale"
    home_status := dget d "statusType"
    address := Option.some address
    sale_price := if is_rental then Option.none else price
    rental_price := if is_rental then price else Option.none
    latitude := lat
    longitude := lon
    beds := bed
    baths := bath
    living_area := area
    source_url := extractUrl (dget d "detailUrl") }

/-- `_process_building(item)`: extract address/price/coordinates, drop
(`None`) when address or price is falsy, classify by the upper-cased
`statusType`, take min values for beds/baths/area. -/
def processBuilding (d : PyDict) : Except PyErr (Option NormData) := do
  let address := extractAddress (dget d "address")
  let price ← extractPrice (dget d "price")
  let co ← extractCoordinates d
  if !optStrTruthy address || !optIntTruthy price then
    pure Option.none
  else do
    let statusU ← pyUpper (dgetD d "statusType" (.str ""))
    let is_rental := hasSubstr "RENT" statusU
    let bed ← extractNumber (dget d "minBeds") false
    let bath ← extractNumber (dget d "minBaths") true
    let area ← extractNumber (dget d "minArea") false
    pure (Option.some
      (mkBuildingData d (address.getD "") price co.1 co.2 is_rental bed bath area))

/-- The dict literal returned by `_process_individual_property`: the
extracted price lands on exactly one side of the sale/rental split, the
identifier is the stringification of `item.get("zpid")`. -/
def mkIndividualData (d : PyDict) (lat lon : Option Rat) (price : Option Int)
    (is_rental : Bool) (zest rzest bed bath area yearB days : Option Rat)
    (lotVal : PyVal) : NormData :=
  { zpid := pyStr (dget d "zpid")
    building := false
    listing_type := if is_rental then "rental" else "sale"
    home_type := dget d "homeType"
    home_status := dget d "statusType"
    sale_price := if is_rental then Option.none else price
    rental_price := if is_rental then price else Option.none
    zestimate := zest
    rent_zestimate := rzest
    address := extractAddress (.dict d)
    beds := bed
    baths := bath
    living_area := area
    lot_size := if isNoneV lotVal then Option.none else Option.some (pyStr lotVal)
    year_built := yearB
    latitude := lat
    longitude := lon
    source_url := extractUrl (dget d "detailUrl")
    broker_name := dget d "brokerName"
    days_on_zillow := days }

/-- Python `pat in v` (`in` against an arbitrary value): substring test on
strings, membership on lists, key membership on dicts, `TypeError`
otherwise. -/
def pyContains (pat : String) (v : PyVal) : Except PyErr Bool :=
  match v with
  | .str s => .ok (hasSubstr pat s)
  | .list l => .ok (l.any (fun x => match x with | .str s => s == pat | _ => false))
  | .dict d => .ok (hasKey d pat)
  | _ => .error .typeError

/-- `_process_individual_property(item)`: extract coordinates, address
(from the whole item), price; classify by `"RENT" in statusText`; read the
`hdpData.homeInfo` backup object (each `.get` can raise `AttributeError`
on a non-mapping); assemble the normalized dict.  This path has no
rejection check: it always returns a dict. -/
def processIndividual (d : PyDict) : Except PyErr NormData := do
  let co ← extractCoordinates d
  let price ← extractPrice (dget d "price")
  let is_rental ← pyContains "RENT" (dgetD d "statusText" (.str ""))
  let hdpData ← pyGet (dgetD d "hdpData" (.dict [])) "homeInfo" (.dict [])
  let zestV ← pyGet hdpData "zestimate" .none
  let rzestV ← pyGet hdpData "rentZestimate" .none
  let lotVal ← pyGet hdpData "lotAreaValue" .none
  let yearV ← pyGet hdpData "yearBuilt" .none
  let zest ← extractNumber zestV false
  let rzest ← extractNumber rzestV false
  let bed ← extractNumber (dget d "beds") false
  let bath ← extractNumber (dget d "baths") true
  let area ← extractNumber (dget d "area") false
  let yearB ← extractNumber yearV false
  let days ← extractNumber (dget d "timeOnZillow") false
  pure (mkIndividualData d co.1 co.2 price is_rental zest rzest bed bath area
    yearB days lotVal)

/-- The shape gate of `normalize_results`: at least one of the meaningful
signals {address, price-like field, identifier, building identifier,
coordinate-like field} must be truthy. -/
def passesShapeGate (d : PyDict) : Bool :=
  truthy (dget d "address") ||
  (truthy (dget d "price") || truthy (dget d "unformattedPrice")) ||
  truthy (dget d "zpid") ||
  truthy (dget d "buildingId") ||
  (truthy (dget d "latLong") || (truthy (dget d "latitude") && truthy (dget d "longitude")))

/-- Variant classification: building iff `isBuilding` or `buildingId` is
truthy. -/
def isBuildingRec (d : PyDict) : Bool :=
  truthy (dget d "isBuilding") || truthy (dget d "buildingId")

/-- Dispatch to the building or individual processing path. -/
def processItem (d : PyDict) : Except PyErr (Option NormData) :=
  if isBuildingRec d then processBuilding d
  else (processIndividual d).map Option.some

/-- f-string rendering of the address component of the dedup key
(`None` renders as the string `"None"`). -/
def fmtOptStr : Option String → String
  | Option.none => "None"
  | Option.some s => s

/-- f-string rendering of the price component of the dedup key. -/
def fmtOptInt : Option Int → String
  | Option.none => "None"
  | Option.some n => intStr n

/-- The composite deduplication key
`f"{normalized_data['address']}_{price_for_dedup}_{listing_type}"`, where
the active price is the sale price when present, otherwise the rental
price. -/
def ndKey (nd : NormData) : String :=
  let price_for_dedup :=
    match nd.sale_price with
    | Option.some p => Option.some p
    | Option.none => nd.rental_price
  fmtOptStr nd.address ++ "_" ++ fmtOptInt price_for_dedup ++ "_" ++ nd.listing_type

/-- The same key recomputed from an emitted Listing (the validated fields
are copied verbatim from the normalized data). -/
def listingKey (l : Listing) : String :=
  let price_for_dedup :=
    match l.sale_price with
    | Option.some p => Option.some p
    | Option.none => l.rental_price
  fmtOptStr l.address ++ "_" ++ fmtOptInt price_for_dedup ++ "_" ++
    (match l.listing_type with
     | Option.some s => s
     | Option.none => "None")

/-- Loop state of `normalize_results`: the listings accumulated so far and
the set of already-seen dedup keys. -/
abbrev NormState := List Listing × List String

/-- One iteration of the `normalize_results` loop.  Every failure mode
(non-dict item, empty item, shape-gate rejection, processing exception,
`None` from the building path, duplicate key, pydantic `ValidationError`)
leaves the state unchanged — the `try`/`except` catches everything.  The
clock supplies `datetime.now` for the k-th constructed listing. -/
def normStep (clock : Nat → Nat) (st : NormState) (item : PyVal) : NormState :=
  if truthy item && isDictV item then
    if passesShapeGate (asDict item) then
      match processItem (asDict item) with
      | .error _ => st
      | .ok Option.none => st
      | .ok (Option.some nd) =>
        if ndKey nd ∈ st.2 then st
        else
          match mkListing (clock st.1.length) nd with
          | Option.none => st
          | Option.some l => (st.1 ++ [l], st.2 ++ [ndKey nd])
    else st
  else st

/-- `normalize_results(raw_items)`: fold the per-record step over the batch
starting from empty accumulators; the dedup set is local to the call. -/
def normalizeResults (clock : Nat → Nat) (raw_items : List PyVal) : List Listing :=
  (raw_items.foldl (normStep clock) ([], [])).1

/-- A listing with its timestamp scrubbed (for comparing runs made at
different times). -/
def eraseTs (l : Listing) : Listing :=
  { l with timestamp := 0 }

/-- The dedup key a record would contribute, when it reaches the
deduplication stage at all. -/
def recordKey (item : PyVal) : Option String :=
  if truthy item && isDictV item then
    if passesShapeGate (asDict item) then
      match processItem (asDict item) with
      | .ok (Option.some nd) => Option.some (ndKey nd)
      | _ => Option.none
    else Option.none
  else Option.none

/-
  Filter validation (src/src/models.py `SearchFilters.validate_radius`)
  and the query builder's map bounds (src/src/nodes/zillow_node.py
  `build_zillow_url`).
-/

/-- `MAX_RADIUS_MILES` from src/src/config.py. -/
def MAX_RADIUS_MILES : Rat := 1/2

/-- The `radius_miles` field validator: accepts `v` unless `v <= 0 or
v > MAX_RADIUS_MILES`, raising a `ValueError` whose message names the
field. -/
def validate_radius (v : Rat) : Except String Rat :=
  if v ≤ 0 || MAX_RADIUS_MILES < v then
    .error "radius_miles must be between 0 and MAX_RADIUS_MILES"
  else .ok v

/-- The geographic part of a `SearchQuery` as used by `build_zillow_url`. -/
structure SearchQueryGeo where
  latitude : Option Rat
  longitude : Option Rat
  radius_miles : Option Rat

/-- Python truthiness of an optional float (`None` and `0.0` falsy). -/
def optRatTruthy : Option Rat → Bool
  | Option.none => false
  | Option.some q => q != 0

/-- `lat_offset = (query.radius_miles or 5.0) / 69.0`. -/
def latOffsetCode (radius : Rat) : Rat := radius / 69

/-- `lng_offset = (query.radius_miles or 5.0) /
(69.0 * abs(query.latitude) * 0.01745329)` — the code divides by the
latitude expressed in radians; its own comment says `cos(lat in radians)`
but no cosine is applied. -/
def lngOffsetCode (radius lat : Rat) : Rat :=
  radius / (69 * |lat| * (1745329 / 100000000))

/-- The bounding box `map_bounds`. -/
structure MapBounds where
  west : Rat
  east : Rat
  south : Rat
  north : Rat
  deriving DecidableEq

/-- The map-bounds computation of `build_zillow_url`: the bounds are
assigned only under `if query.latitude and query.longitude:`; when either
coordinate is falsy (absent, or exactly zero) the later reference to
`map_bounds` raises a `NameError`. -/
def computeMapBounds (q : SearchQueryGeo) : Except PyErr MapBounds :=
  if optRatTruthy q.latitude && optRatTruthy q.longitude then
    let lat := q.latitude.getD 0
    let lon := q.longitude.getD 0
    let r : Rat :=
      match q.radius_miles with
      | Option.some rm => if rm != 0 then rm else 5
      | Option.none => 5
    let lat_offset := latOffsetCode r
    let lng_offset := lngOffsetCode r lat
    .ok { west := lon - lng_offset, east := lon + lng_offset,
          south := lat - lat_offset, north := lat + lat_offset }
  else .error .nameError

/-
  Helper lemmas.
-/

theorem exceptBind_ok {ε α β : Type} {x : Except ε α} {f : α → Except ε β} {b : β}
    (h : x >>= f = .ok b) : ∃ a, x = .ok a ∧ f a = .ok b := by
  cases x with
  | ok a => exact ⟨a, rfl, h⟩
  | error e => exact Except.noConfusion h

theorem takeWhile_eq_nil {p : Char → Bool} {l : List Char}
    (h : ∀ c ∈ l, p c = false) : l.takeWhile p = [] := by
  cases l with
  | nil => rfl
  | cons c cs => simp [List.takeWhile_cons, h c (by simp)]

theorem dropWhile_eq_self {p : Char → Bool} {l : List Char}
    (h : ∀ c ∈ l, p c = false) : l.dropWhile p = l := by
  cases l with
  | nil => rfl
  | cons c cs => simp [List.dropWhile_cons, h c (by simp)]

theorem isDigit_toLower (c : Char) : (Char.toLower c).isDigit = c.isDigit := by
  unfold Char.toLower
  by_cases h : c.toNat ≥ 65 ∧ c.toNat ≤ 90
  · rw [if_pos h]
    have hv : (Char.toNat c + 32).isValidChar := Or.inl (by omega)
    rw [Char.ofNat, dif_pos hv]
    have h1 : (Char.ofNatAux (Char.toNat c + 32) hv).val.toNat = Char.toNat c + 32 := rfl
    simp only [Char.isDigit, ge_iff_le, UInt32.le_def, BitVec.le_def]
    have h48 : ((48 : UInt32)).toBitVec.toNat = 48 := rfl
    have h57 : ((57 : UInt32)).toBitVec.toNat = 57 := rfl
    have hc : (Char.ofNatAux (Char.toNat c + 32) hv).val.toBitVec.toNat = Char.toNat c + 32 := h1
    have hcc : c.val.toBitVec.toNat = c.toNat := rfl
    rw [Bool.eq_iff_iff]
    simp only [Bool.and_eq_true, decide_eq_true_eq]
    omega
  · rw [if_neg h]

theorem parseMantissa_none {l : List Char}
    (h : ∀ c ∈ l, c.isDigit = false) : parseMantissa l = Option.none := by
  have hip : l.takeWhile Char.isDigit = [] := takeWhile_eq_nil h
  have hdp : l.dropWhile Char.isDigit = l := dropWhile_eq_self h
  unfold parseMantissa
  rw [hip, hdp]
  cases l with
  | nil => simp
  | cons c cs =>
    by_cases hdot : c = '.'
    · subst hdot
      have hfp : cs.takeWhile Char.isDigit = [] :=
        takeWhile_eq_nil (fun x hx => h x (by simp [hx]))
      simp [hfp]
    · simp [hdot]

theorem stripSpaces_subset {l : List Char} : ∀ c ∈ stripSpaces l, c ∈ l := by
  intro c hc
  unfold stripSpaces at hc
  rw [List.mem_reverse] at hc
  have := List.dropWhile_subset (l := (l.dropWhile isPySpace).reverse) isPySpace hc
  rw [List.mem_reverse] at this
  exact List.dropWhile_subset isPySpace this

theorem splitSign_subset {l : List Char} : ∀ c ∈ (splitSign l).2, c ∈ l := by
  intro c hc
  cases l with
  | nil => simp [splitSign] at hc
  | cons a rest =>
    by_cases ha : a = '+'
    · simp only [splitSign, if_pos ha] at hc
      exact List.mem_cons_of_mem _ hc
    · by_cases hb : a = '-'
      · simp only [splitSign, if_neg ha, if_pos hb] at hc
        exact List.mem_cons_of_mem _ hc
      · simp only [splitSign, if_neg ha, if_neg hb] at hc
        exact hc

theorem parseFloatLit_none {s : String}
    (h : ∀ c ∈ s.toList, c.isDigit = false) : parseFloatLit s = Option.none := by
  have hm : parseMantissa (splitSign (stripSpaces s.toList)).2 = Option.none :=
    parseMantissa_none (fun c hc => h c (stripSpaces_subset c (splitSign_subset c hc)))
  simp only [parseFloatLit, hm]

theorem stripDollar_subset {l : List Char} : ∀ c ∈ stripDollar l, c ∈ l := by
  intro c hc
  cases l with
  | nil => simp [stripDollar] at hc
  | cons a rest =>
    by_cases ha : a = '$'
    · simp only [stripDollar, if_pos ha] at hc
      exact List.mem_cons_of_mem _ hc
    · simp only [stripDollar, if_neg ha] at hc
      exact hc

theorem fromDigitsAfter_subset {rest : List Char} {g : String}
    (h : fromDigitsAfter rest = Option.some g) : ∀ c ∈ g.toList, c ∈ rest := by
  intro c hc
  unfold fromDigitsAfter at h
  split at h
  · exact absurd h (by simp)
  · have hg : g = String.mk ((stripDollar (rest.dropWhile isPySpace)).takeWhile
        (fun c => c.isDigit || c == ',')) := by
      injection h with h'; exact h'.symm
    have h1 : c ∈ (stripDollar (rest.dropWhile isPySpace)).takeWhile
        (fun c => c.isDigit || c == ',') := by
      rw [hg] at hc; exact hc
    have h2 : c ∈ stripDollar (rest.dropWhile isPySpace) := List.takeWhile_subset _ h1
    have h3 : c ∈ rest.dropWhile isPySpace := stripDollar_subset c h2
    exact List.dropWhile_subset isPySpace h3

theorem matchFromAt_subset {l : List Char} {g : String}
    (h : matchFromAt l = Option.some g) : ∀ c ∈ g.toList, c ∈ l := by
  unfold matchFromAt at h
  split at h
  · rename_i rest
    intro c hc
    exact List.mem_cons_of_mem _ (List.mem_cons_of_mem _ (List.mem_cons_of_mem _
      (List.mem_cons_of_mem _ (fromDigitsAfter_subset h c hc))))
  · exact Option.noConfusion h

theorem searchFromNum_subset : ∀ {l : List Char} {g : String},
    searchFromNum l = Option.some g → ∀ c ∈ g.toList, c ∈ l
  | [], g, h => by simp [searchFromNum] at h
  | c :: cs, g, h => by
    unfold searchFromNum at h
    cases hm : matchFromAt (c :: cs) with
    | some g' =>
      rw [hm] at h
      injection h with h'
      subst h'
      exact matchFromAt_subset hm
    | none =>
      rw [hm] at h
      intro x hx
      exact List.mem_cons_of_mem _ (searchFromNum_subset h x hx)

theorem priceStrOf_nodigit {s : String}
    (h : ∀ c ∈ s.toList, c.isDigit = false) :
    ∀ c ∈ (priceStrOf s).toList, c.isDigit = false := by
  have hlow : ∀ c ∈ (pyLower s).toList, c.isDigit = false := by
    intro c hc
    have hmm : c ∈ s.toList.map Char.toLower := hc
    obtain ⟨a, ha, rfl⟩ := List.mem_map.1 hmm
    rw [isDigit_toLower]
    exact h a ha
  have hkdd : ∀ c ∈ (keepDigitsDots s).toList, c.isDigit = false := by
    intro c hc
    have hmem : c ∈ s.toList.filter (fun c => c.isDigit || c == '.') := hc
    exact h c (List.mem_of_mem_filter hmem)
  unfold priceStrOf
  by_cases hfrom : hasSubstr "from" (pyLower s) = true
  · rw [if_pos hfrom]
    cases hsr : searchFromNum (pyLower s).toList with
    | some grp =>
      intro c hc
      have hmem : c ∈ grp.toList.filter Char.isDigit := hc
      exact absurd (List.of_mem_filter hmem)
        (by simp [hlow c (searchFromNum_subset hsr c (List.mem_of_mem_filter hmem))])
    | none => exact hkdd
  · rw [if_neg hfrom]
    exact hkdd

theorem extractPrice_nodigit {s : String}
    (h : ∀ c ∈ s.toList, c.isDigit = false) :
    extractPrice (.str s) = .ok Option.none := by
  simp only [extractPrice]
  rw [parseFloatLit_none (priceStrOf_nodigit h)]

/-- A numeric token of 400 nines: its value exceeds the double overflow
threshold, so Python's `float()` turns it into infinity. -/
def hugeDigits : String := String.mk (List.replicate 400 '9')

/-
  Claim C5.
-/

/-- C5, counterexample: the coordinate extractor is not total — it raises
`ValueError` on a non-numeric coordinate string (`float("abc")`) and
`AttributeError` when `latLong` is a truthy non-mapping, refuting the
claim that every shared primitive extractor returns normally on every
input. -/
theorem C5_counterexample :
    extractCoordinates [("latitude", PyVal.str "abc"), ("longitude", PyVal.str "1")]
      = .error .valueError ∧
    extractCoordinates [("latLong", PyVal.str "x")] = .error .attributeError := by
  exact ⟨by decide, by decide⟩

/-- C5, amended: no shared primitive extractor is guaranteed total.
Coordinate extraction raises on unparseable coordinate values; price
extraction catches `ValueError` only, so a numeric token of 400 digits —
which `float()` converts to infinity — makes the `int()` raise an
uncaught `OverflowError`; numeric extraction's `int(num)` is unguarded
and likewise raises when fractional results are not allowed (with
`float_allowed` the infinite float is returned, not raised); a string
whose cleaned price string fails to parse *is* handled: the `ValueError`
is caught and yields the absent value.  (Address and URL extraction
contain no fallible operations and are embedded as plain total
functions.) -/
theorem C5_amended :
    extractPrice (.str hugeDigits) = .error .overflowError ∧
    extractNumber (.str hugeDigits) false = .error .overflowError ∧
    (∃ r, extractNumber (.str hugeDigits) true = .ok r) ∧
    (∃ d : PyDict, ∃ e : PyErr, extractCoordinates d = .error e) ∧
    (∀ s : String, parseFloatLit (priceStrOf s) = Option.none →
      extractPrice (.str s) = .ok Option.none) := by
  refine ⟨by decide, by decide, ?_, ⟨[("latLong", PyVal.str "x")], .attributeError, by decide⟩, ?_⟩
  · cases hq : firstNumToken hugeDigits.toList with
    | some q => exact ⟨Option.some q, by simp only [extractNumber]; rw [hq]; rfl⟩
    | none => exact ⟨Option.none, by simp only [extractNumber]; rw [hq]⟩
  · intro s h
    simp only [extractPrice]
    rw [h]

/-- C5, witness: the caught-`ValueError` conjunct instantiated at a
concrete unparseable string. -/
theorem C5_amended_witness :
    extractPrice (.str "abc") = .ok Option.none :=
  C5_amended.2.2.2.2 "abc" (by decide)

/-
  Claim C6.
-/

/-- C6: price extraction passes ints through, strips currency formatting
from strings, extracts the numeric token after a leading "from" range
marker (in particular `"From $388,000"` yields `388000`), and yields the
absent value on any digit-free string. -/
theorem C6_price_extraction :
    extractPrice (.str "From $388,000") = .ok (Option.some 388000) ∧
    (∀ n : Int, extractPrice (.int n) = .ok (Option.some n)) ∧
    extractPrice (.str "$450,000") = .ok (Option.some 450000) ∧
    (∀ s : String, (∀ c ∈ s.toList, c.isDigit = false) →
      extractPrice (.str s) = .ok Option.none) := by
  refine ⟨by decide, fun n => rfl, by decide, fun s h => extractPrice_nodigit h⟩

/-- C6, witness: the universally quantified conjuncts instantiated at
concrete inputs. -/
theorem C6_price_extraction_witness :
    extractPrice (.int 450000) = .ok (Option.some 450000) ∧
    extractPrice (.str "N/A") = .ok Option.none := by
  exact ⟨C6_price_extraction.2.1 450000,
    C6_price_extraction.2.2.2 "N/A" (by decide)⟩

/-
  Claim C9.
-/

/-- C9: the radius validator accepts exactly the radii in
`(0, MAX_RADIUS_MILES]`; radius `0` is rejected with a `ValueError` whose
message names the `radius_miles` field. -/
theorem C9_radius_validation :
    (∀ v : Rat, (∃ r, validate_radius v = .ok r) ↔ (0 < v ∧ v ≤ MAX_RADIUS_MILES)) ∧
    validate_radius 0 = .error "radius_miles must be between 0 and MAX_RADIUS_MILES" ∧
    hasSubstr "radius_miles" "radius_miles must be between 0 and MAX_RADIUS_MILES" = true := by
  refine ⟨fun v => ?_, ?_, by decide⟩
  · unfold validate_radius
    by_cases h : (v ≤ 0 || MAX_RADIUS_MILES < v) = true
    · rw [if_pos h]
      simp only [Bool.or_eq_true, decide_eq_true_eq] at h
      constructor
      · rintro ⟨r, hr⟩
        exact absurd hr (by simp)
      · rintro ⟨h1, h2⟩
        rcases h with h | h
        · exact absurd h1 (not_lt.2 h)
        · exact absurd h2 (not_le.2 h)
    · rw [if_neg h]
      simp only [Bool.or_eq_true, decide_eq_true_eq, not_or] at h
      exact ⟨fun _ => ⟨not_le.1 h.1, not_lt.1 h.2⟩, fun _ => ⟨v, rfl⟩⟩
  · unfold validate_radius
    rw [if_pos]
    simp

/-- C9, witness: a radius inside the interval is accepted; radius `0` is
rejected. -/
theorem C9_radius_validation_witness :
    (∃ r, validate_radius (1/4) = .ok r) ∧
    validate_radius 0 = .error "radius_miles must be between 0 and MAX_RADIUS_MILES" := by
  exact ⟨(C9_radius_validation.1 (1/4)).mpr (by norm_num [MAX_RADIUS_MILES]),
    C9_radius_validation.2.1⟩

/-
  Claim C8.
-/

/-- C8: evaluation of the query builder's bounds code at the inputs where
it misbehaves.  The code divides the radius by `69 · |latitude| ·
0.01745329` — the latitude in radians, not its cosine (the inline comment
announces a cosine) — so the longitude offset blows up near the equator
(over 360 degrees at latitude 0.001), the computation raises `NameError`
at latitude exactly 0 (the `map_bounds` assignment is guarded by the
truthiness of the coordinates), and at the poles (latitude ±90), where the
claim locates the singularity, the offset is in fact small and finite. -/
theorem C8_code_eval :
    computeMapBounds ⟨Option.some 0, Option.some (-120), Option.some (1/2)⟩
      = .error .nameError ∧
    lngOffsetCode (1/2) (1/1000) > 360 ∧
    lngOffsetCode (1/2) 90 < 1 ∧
    latOffsetCode (1/2) = 1/138 := by
  refine ⟨?_, ?_, ?_, ?_⟩
  · simp [computeMapBounds, optRatTruthy]
  · rw [lngOffsetCode, abs_of_pos (by norm_num)]
    norm_num
  · rw [lngOffsetCode, abs_of_pos (by norm_num)]
    norm_num
  · rw [latOffsetCode]
    norm_num

/-
  Inversion lemmas for the processing paths.
-/

theorem optBind_some {α β : Type} {x : Option α} {f : α → Option β} {b : β}
    (h : x >>= f = Option.some b) : ∃ a, x = Option.some a ∧ f a = Option.some b := by
  cases x with
  | some a => exact ⟨a, rfl, h⟩
  | none => exact Option.noConfusion h

theorem validateCore_fields {nd : NormData} {c : ListingCore}
    (h : validateCore nd = Option.some c) :
    c.address = nd.address ∧ c.sale_price = nd.sale_price ∧
    c.rental_price = nd.rental_price ∧
    c.listing_type = Option.some nd.listing_type ∧
    c.building = nd.building ∧ c.zpid = Option.some nd.zpid ∧
    (nd.listing_type = "sale" ∨ nd.listing_type = "rental") := by
  unfold validateCore at h
  obtain ⟨ht, _, h⟩ := optBind_some h
  obtain ⟨hs, _, h⟩ := optBind_some h
  obtain ⟨bn, _, h⟩ := optBind_some h
  obtain ⟨ze, _, h⟩ := optBind_some h
  obtain ⟨rz, _, h⟩ := optBind_some h
  obtain ⟨bd, _, h⟩ := optBind_some h
  obtain ⟨la, _, h⟩ := optBind_some h
  obtain ⟨yb, _, h⟩ := optBind_some h
  obtain ⟨su, _, h⟩ := optBind_some h
  by_cases hlt : (nd.listing_type == "sale" || nd.listing_type == "rental") = true
  · rw [if_pos hlt] at h
    have hc := Option.some.inj h
    subst hc
    refine ⟨rfl, rfl, rfl, rfl, rfl, rfl, ?_⟩
    simpa using hlt
  · rw [if_neg hlt] at h
    exact Option.noConfusion h

theorem mkListing_some {t : Nat} {nd : NormData} {l : Listing}
    (h : mkListing t nd = Option.some l) :
    ∃ c, validateCore nd = Option.some c ∧ l = Listing.ofCore c t := by
  unfold mkListing at h
  rw [Option.map_eq_some'] at h
  obtain ⟨c, hc, hl⟩ := h
  exact ⟨c, hc, hl.symm⟩

theorem listingKey_ofCore {nd : NormData} {c : ListingCore}
    (h : validateCore nd = Option.some c) (t : Nat) :
    listingKey (Listing.ofCore c t) = ndKey nd := by
  obtain ⟨ha, hs, hr, hlt, _, _, _⟩ := validateCore_fields h
  unfold listingKey ndKey Listing.ofCore
  simp only []
  rw [ha, hs, hr, hlt]

theorem processIndividual_some {d : PyDict} {nd : NormData}
    (h : processIndividual d = .ok nd) :
    ∃ co price is_rental zest rzest bed bath area yearB days lotVal,
      nd = mkIndividualData d (Prod.fst co) (Prod.snd co) price is_rental zest
        rzest bed bath area yearB days lotVal := by
  unfold processIndividual at h
  obtain ⟨co, _, h⟩ := exceptBind_ok h
  obtain ⟨price, _, h⟩ := exceptBind_ok h
  obtain ⟨is_rental, _, h⟩ := exceptBind_ok h
  obtain ⟨hdpData, _, h⟩ := exceptBind_ok h
  obtain ⟨zestV, _, h⟩ := exceptBind_ok h
  obtain ⟨rzestV, _, h⟩ := exceptBind_ok h
  obtain ⟨lotVal, _, h⟩ := exceptBind_ok h
  obtain ⟨yearV, _, h⟩ := exceptBind_ok h
  obtain ⟨zest, _, h⟩ := exceptBind_ok h
  obtain ⟨rzest, _, h⟩ := exceptBind_ok h
  obtain ⟨bed, _, h⟩ := exceptBind_ok h
  obtain ⟨bath, _, h⟩ := exceptBind_ok h
  obtain ⟨area, _, h⟩ := exceptBind_ok h
  obtain ⟨yearB, _, h⟩ := exceptBind_ok h
  obtain ⟨days, _, h⟩ := exceptBind_ok h
  exact ⟨co, price, is_rental, zest, rzest, bed, bath, area, yearB, days, lotVal,
    (Except.ok.inj h).symm⟩

theorem processBuilding_some {d : PyDict} {nd : NormData}
    (h : processBuilding d = .ok (Option.some nd)) :
    ∃ address price co is_rental bed bath area,
      optStrTruthy address = true ∧ optIntTruthy price = true ∧
      nd = mkBuildingData d (address.getD "") price (Prod.fst co) (Prod.snd co)
        is_rental bed bath area := by
  unfold processBuilding at h
  obtain ⟨price, _, h⟩ := exceptBind_ok h
  obtain ⟨co, _, h⟩ := exceptBind_ok h
  by_cases hguard : (!optStrTruthy (extractAddress (dget d "address")) ||
      !optIntTruthy price) = true
  · rw [if_pos hguard] at h
    exact absurd (Except.ok.inj h) (by simp)
  · rw [if_neg hguard] at h
    simp only [Bool.or_eq_true, Bool.not_eq_true', not_or] at hguard
    obtain ⟨statusU, _, h⟩ := exceptBind_ok h
    obtain ⟨bed, _, h⟩ := exceptBind_ok h
    obtain ⟨bath, _, h⟩ := exceptBind_ok h
    obtain ⟨area, _, h⟩ := exceptBind_ok h
    refine ⟨extractAddress (dget d "address"), price, co, hasSubstr "RENT" statusU,
      bed, bath, area, ?_, ?_, ?_⟩
    · simpa using hguard.1
    · simpa using hguard.2
    · exact (Option.some.inj (Except.ok.inj h)).symm

/-- The per-record invariant the two processing paths establish: the
classification is always one of `sale`/`rental`, at most one price side is
populated, and the building path populates exactly one. -/
theorem processItem_good {d : PyDict} {nd : NormData}
    (h : processItem d = .ok (Option.some nd)) :
    (nd.listing_type = "sale" ∨ nd.listing_type = "rental") ∧
    ¬(nd.sale_price ≠ Option.none ∧ nd.rental_price ≠ Option.none) ∧
    (nd.building = true → (nd.sale_price ≠ Option.none ∨ nd.rental_price ≠ Option.none)) := by
  unfold processItem at h
  by_cases hb : isBuildingRec d = true
  · rw [if_pos hb] at h
    obtain ⟨address, price, co, is_rental, bed, bath, area, _, hpr, rfl⟩ :=
      processBuilding_some h
    have hprice : price ≠ Option.none := by
      cases price with
      | none => exact absurd hpr (by simp [optIntTruthy])
      | some n => simp
    unfold mkBuildingData
    cases is_rental with
    | true => exact ⟨Or.inr rfl, by simp, fun _ => Or.inr (by simpa using hprice)⟩
    | false => exact ⟨Or.inl rfl, by simp, fun _ => Or.inl (by simpa using hprice)⟩
  · rw [if_neg hb] at h
    cases hpi : processIndividual d with
    | error e => rw [hpi] at h; exact Except.noConfusion h
    | ok nd' =>
      rw [hpi] at h
      obtain rfl : nd' = nd := Option.some.inj (Except.ok.inj h)
      obtain ⟨co, price, is_rental, zest, rzest, bed, bath, area, yearB, days,
        lotVal, rfl⟩ := processIndividual_some hpi
      unfold mkIndividualData
      cases is_rental with
      | true => exact ⟨Or.inr rfl, by simp, fun hff => by simp at hff⟩
      | false => exact ⟨Or.inl rfl, by simp, fun hff => by simp at hff⟩

theorem processIndividual_zpid {d : PyDict} {nd : NormData}
    (h : processIndividual d = .ok nd) : nd.zpid = pyStr (dget d "zpid") := by
  obtain ⟨co, price, is_rental, zest, rzest, bed, bath, area, yearB, days,
    lotVal, rfl⟩ := processIndividual_some h
  rfl

theorem dget_of_not_hasKey {d : PyDict} {k : String} (h : hasKey d k = false) :
    dget d k = .none := by
  unfold hasKey at h
  rw [List.any_eq_false] at h
  unfold dget dgetD
  rw [List.find?_eq_none.mpr h]

/-
  The per-step case analysis of the normalization loop, and the fold
  invariants built on it.
-/

/-- Either a record leaves the loop state untouched, or it appends exactly
one validated listing together with its dedup key. -/
theorem normStep_cases (clock : Nat → Nat) (st : NormState) (item : PyVal) :
    normStep clock st item = st ∨
    ∃ nd c, processItem (asDict item) = .ok (Option.some nd) ∧
      validateCore nd = Option.some c ∧
      ndKey nd ∉ st.2 ∧
      normStep clock st item =
        (st.1 ++ [Listing.ofCore c (clock st.1.length)], st.2 ++ [ndKey nd]) := by
  unfold normStep
  by_cases h1 : (truthy item && isDictV item) = true
  · rw [if_pos h1]
    by_cases h2 : passesShapeGate (asDict item) = true
    · rw [if_pos h2]
      cases hp : processItem (asDict item) with
      | error e => exact Or.inl rfl
      | ok o =>
        cases o with
        | none => exact Or.inl rfl
        | some nd =>
          dsimp only
          by_cases h3 : ndKey nd ∈ st.2
          · rw [if_pos h3]
            exact Or.inl rfl
          · rw [if_neg h3]
            cases hm : mkListing (clock st.1.length) nd with
            | none => exact Or.inl rfl
            | some l =>
              obtain ⟨c, hc, rfl⟩ := mkListing_some hm
              exact Or.inr ⟨nd, c, rfl, hc, h3, rfl⟩
    · rw [if_neg h2]
      exact Or.inl rfl
  · rw [if_neg h1]
    exact Or.inl rfl

theorem normStep_skip_malformed (clock : Nat → Nat) (st : NormState) (item : PyVal)
    (h : (truthy item && isDictV item) = false) : normStep clock st item = st := by
  unfold normStep
  rw [h]
  rfl

theorem normStep_skip_error (clock : Nat → Nat) (st : NormState) (item : PyVal)
    (e : PyErr) (h : processItem (asDict item) = .error e) :
    normStep clock st item = st := by
  unfold normStep
  by_cases h1 : (truthy item && isDictV item) = true
  · rw [if_pos h1]
    by_cases h2 : passesShapeGate (asDict item) = true
    · rw [if_pos h2, h]
    · rw [if_neg h2]
  · rw [if_neg h1]

theorem normStep_skip_dup (clock : Nat → Nat) (st : NormState) (item : PyVal)
    (K : String) (hk : recordKey item = Option.some K) (hmem : K ∈ st.2) :
    normStep clock st item = st := by
  unfold recordKey at hk
  unfold normStep
  by_cases h1 : (truthy item && isDictV item) = true
  · rw [if_pos h1] at hk ⊢
    by_cases h2 : passesShapeGate (asDict item) = true
    · rw [if_pos h2] at hk ⊢
      cases hp : processItem (asDict item) with
      | error e => rfl
      | ok o =>
        cases o with
        | none => rw [hp] at hk
        | some nd =>
          rw [hp] at hk
          obtain rfl : ndKey nd = K := Option.some.inj hk
          dsimp only
          rw [if_pos hmem]
    · rw [if_neg h2] at hk
      exact Option.noConfusion hk
  · rw [if_neg h1] at hk
    exact Option.noConfusion hk

/-- The state invariant of the loop: every accumulated listing satisfies
the classification/price discipline, its identifier is populated, and the
seen-key set is exactly (and without duplicates) the keys of the
accumulated listings, in order. -/
def stateGood (st : NormState) : Prop :=
  (∀ l ∈ st.1,
    (l.listing_type = Option.some "sale" ∨ l.listing_type = Option.some "rental") ∧
    ¬(l.sale_price ≠ Option.none ∧ l.rental_price ≠ Option.none) ∧
    (l.building = true → (l.sale_price ≠ Option.none ∨ l.rental_price ≠ Option.none)) ∧
    l.zpid ≠ Option.none) ∧
  st.2 = st.1.map listingKey ∧ st.2.Nodup

theorem normStep_good (clock : Nat → Nat) (st : NormState) (item : PyVal)
    (h : stateGood st) : stateGood (normStep clock st item) := by
  rcases normStep_cases clock st item with heq | ⟨nd, c, hp, hc, hkey, heq⟩
  · rw [heq]; exact h
  · rw [heq]
    obtain ⟨hgood, hkeys, hnodup⟩ := h
    obtain ⟨hadr, hsp, hrp, hlt, hbld, hzp, hltv⟩ := validateCore_fields hc
    obtain ⟨hglt, hgp, hgb⟩ := processItem_good hp
    refine ⟨?_, ?_, ?_⟩
    · intro l hl
      rcases List.mem_append.1 hl with hl | hl
      · exact hgood l hl
      · have hleq : l = Listing.ofCore c (clock st.1.length) := by simpa using hl
        subst hleq
        have e1 : (Listing.ofCore c (clock st.1.length)).listing_type = c.listing_type := rfl
        have e2 : (Listing.ofCore c (clock st.1.length)).sale_price = c.sale_price := rfl
        have e3 : (Listing.ofCore c (clock st.1.length)).rental_price = c.rental_price := rfl
        have e4 : (Listing.ofCore c (clock st.1.length)).building = c.building := rfl
        have e5 : (Listing.ofCore c (clock st.1.length)).zpid = c.zpid := rfl
        rw [e1, e2, e3, e4, e5, hadr] at *
        refine ⟨?_, ?_, ?_, ?_⟩
        · rw [hlt]
          rcases hglt with hx | hx
          · exact Or.inl (by rw [hx])
          · exact Or.inr (by rw [hx])
        · rw [hsp, hrp]
          exact hgp
        · rw [hsp, hrp, hbld]
          exact hgb
        · rw [hzp]
          simp
    · rw [List.map_append, hkeys]
      simp [listingKey_ofCore hc]
    · rw [List.nodup_append]
      exact ⟨hnodup, List.nodup_singleton _, by
        intro a ha hb
        rw [List.mem_singleton] at hb
        subst hb
        exact hkey ha⟩

theorem foldl_good (clock : Nat → Nat) :
    ∀ (items : List PyVal) (st : NormState), stateGood st →
      stateGood (items.foldl (normStep clock) st) := by
  intro items
  induction items with
  | nil => exact fun st h => h
  | cons i rest ih =>
    intro st h
    exact ih (normStep clock st i) (normStep_good clock st i h)

theorem normalizeResults_good (clock : Nat → Nat) (items : List PyVal) :
    stateGood (items.foldl (normStep clock) ([], [])) :=
  foldl_good clock items ([], []) ⟨by simp, by simp, List.nodup_nil⟩

/-- Inserting a record on which the loop step is a no-op does not change
the batch result. -/
theorem normalizeResults_insert_skip (clock : Nat → Nat) (xs ys : List PyVal)
    (r : PyVal) (h : ∀ st, normStep clock st r = st) :
    normalizeResults clock (xs ++ r :: ys) = normalizeResults clock (xs ++ ys) := by
  unfold normalizeResults
  rw [List.foldl_append, List.foldl_append, List.foldl_cons, h]

/-
  Concrete raw records used in the counterexamples and witnesses.
-/

def clk0 : Nat → Nat := fun _ => 0
def clk1 : Nat → Nat := fun _ => 1
/-- A record carrying only an identifier. -/
def cxZpidOnly : PyDict := [("zpid", .str "123")]
/-- A record whose address is the literal string `"None"`. -/
def cxAddrNone : PyDict := [("address", .str "None"), ("price", .int 5), ("zpid", .str "1")]
/-- Two records with no address at all and the same price. -/
def cxNoAddr1 : PyDict := [("zpid", .str "2"), ("price", .int 5)]
def cxNoAddr2 : PyDict := [("zpid", .str "3"), ("price", .int 5)]
/-- A record carrying only a coordinate signal. -/
def cxCoordOnly : PyDict :=
  [("latLong", .dict [("latitude", .float 1), ("longitude", .float 2)])]
/-- A record with address and price but no identifier or coordinates. -/
def cxAddrPrice : PyDict := [("address", .str "1 Main St"), ("price", .str "$450,000")]
/-- A record with only a price (no zpid key). -/
def cxPriceOnly : PyDict := [("price", .int 5)]
/-- The normalized data produced from `cxPriceOnly`. -/
def cxNdPriceOnly : NormData :=
  { zpid := "None", building := false, listing_type := "sale",
    sale_price := Option.some 5 }
/-- The listing emitted for `cxZpidOnly` at clock 0. -/
def cxListing1 : Listing :=
  { zpid := Option.some "123", listing_type := Option.some "sale",
    home_type := Option.none, home_status := Option.none,
    sale_price := Option.none, rental_price := Option.none,
    zestimate := Option.none, rent_zestimate := Option.none,
    address := Option.none, beds := Option.none, baths := Option.none,
    living_area := Option.none, lot_size := Option.none,
    year_built := Option.none, latitude := Option.none,
    longitude := Option.none, source_url := Option.none,
    broker_name := Option.none, building := false, timestamp := 0 }

/-
  Claim C1.
-/

/-- C1, counterexample: a record carrying only a `zpid` passes the shape
gate, takes the individual-property path — which has no rejection check —
and is emitted as a Listing whose classification is set (`sale`) while
both price fields are null, refuting the claim that such records are
dropped. -/
theorem C1_counterexample :
    (normalizeResults clk0 [PyVal.dict cxZpidOnly]).map
      (fun l => (l.listing_type, l.sale_price, l.rental_price)) =
      [(Option.some "sale", Option.none, Option.none)] := by decide

/-- C1, amended: every emitted Listing has its classification set
(`sale` or `rental`), at most one of the two price fields populated, and
on the building path — the only path with a rejection check — exactly one
price field populated; an individual-property record with no extractable
price is still emitted, with classification set and both prices null. -/
theorem C1_amended (clock : Nat → Nat) (items : List PyVal) (l : Listing)
    (h : l ∈ normalizeResults clock items) :
    (l.listing_type = Option.some "sale" ∨ l.listing_type = Option.some "rental") ∧
    ¬(l.sale_price ≠ Option.none ∧ l.rental_price ≠ Option.none) ∧
    (l.building = true → (l.sale_price ≠ Option.none ∨ l.rental_price ≠ Option.none)) := by
  have hg := (normalizeResults_good clock items).1 l h
  exact ⟨hg.1, hg.2.1, hg.2.2.1⟩

/-- C1, witness: the amended invariant instantiated at the emitted
listing of the zpid-only record. -/
theorem C1_amended_witness :
    cxListing1 ∈ normalizeResults clk0 [PyVal.dict cxZpidOnly] ∧
    ¬(cxListing1.sale_price ≠ Option.none ∧ cxListing1.rental_price ≠ Option.none) := by
  have hmem : cxListing1 ∈ normalizeResults clk0 [PyVal.dict cxZpidOnly] := by decide
  exact ⟨hmem, (C1_amended clk0 [PyVal.dict cxZpidOnly] cxListing1 hmem).2.1⟩

/-
  Claim C2.
-/

/-- C2, counterexample: the dedup key is built by string formatting, so an
absent address renders as the string `"None"` and collides with a record
whose address is the literal string `"None"`.  Records 2 and 3 share the
normalized triple (no address, price 5, `sale`), yet no Listing with that
triple appears in the output — both are suppressed by record 1, which has
a different triple — refuting "exactly one Listing for that triple
appears, derived from the first such record". -/
theorem C2_counterexample :
    ((processIndividual cxNoAddr1).map
      (fun nd => (nd.address, nd.sale_price, nd.listing_type)) =
      .ok (Option.none, Option.some 5, "sale")) ∧
    ((processIndividual cxNoAddr2).map
      (fun nd => (nd.address, nd.sale_price, nd.listing_type)) =
      .ok (Option.none, Option.some 5, "sale")) ∧
    (normalizeResults clk0
      [PyVal.dict cxAddrNone, PyVal.dict cxNoAddr1, PyVal.dict cxNoAddr2]).map
      (fun l => l.address) = [Option.some "None"] := by decide

/-- C2, amended: output listings have pairwise-distinct dedup keys (so at
most one Listing per (address, active price, classification) triple), and
a record whose composite key string has already been emitted — which can
happen for a record with a *different* triple, because the key is built by
string formatting — is dropped, so the survivor of a key is the earliest
emitted record for it; the seen-key set starts empty on every
invocation. -/
theorem C2_amended :
    (∀ (clock : Nat → Nat) (items : List PyVal),
      ((normalizeResults clock items).map listingKey).Nodup) ∧
    (∀ (clock : Nat → Nat) (xs ys : List PyVal) (r : PyVal) (K : String),
      recordKey r = Option.some K →
      K ∈ (normalizeResults clock xs).map listingKey →
      normalizeResults clock (xs ++ r :: ys) = normalizeResults clock (xs ++ ys)) := by
  constructor
  · intro clock items
    have hg := normalizeResults_good clock items
    have hnd := hg.2.2
    rw [hg.2.1] at hnd
    exact hnd
  · intro clock xs ys r K hk hmem
    have hg := normalizeResults_good clock xs
    have hmem2 : K ∈ (xs.foldl (normStep clock) ([], [])).2 := by
      rw [hg.2.1]
      exact hmem
    unfold normalizeResults
    rw [List.foldl_append, List.foldl_append, List.foldl_cons,
      normStep_skip_dup clock _ r K hk hmem2]

/-- C2, witness: the duplicate-drop conjunct applied to the concrete
collision batch — dropping the absent-address record leaves the output
unchanged. -/
theorem C2_amended_witness :
    normalizeResults clk0
      [PyVal.dict cxAddrNone, PyVal.dict cxNoAddr1, PyVal.dict cxNoAddr2] =
    normalizeResults clk0 [PyVal.dict cxAddrNone, PyVal.dict cxNoAddr2] := by
  have h := C2_amended.2 clk0 [PyVal.dict cxAddrNone] [PyVal.dict cxNoAddr2]
    (PyVal.dict cxNoAddr1) "None_5_sale" (by decide) (by decide)
  simpa using h

/-
  Claim C3.
-/

/-- C3, counterexample: a record carrying only a coordinate signal — no
address, no price, no identifier — is not rejected: the coordinate is an
accepted shape-gate signal and the individual path emits a Listing, so the
output has length 1 where the claim requires 0. -/
theorem C3_counterexample :
    truthy (dget cxCoordOnly "address") = false ∧
    truthy (dget cxCoordOnly "price") = false ∧
    truthy (dget cxCoordOnly "unformattedPrice") = false ∧
    truthy (dget cxCoordOnly "zpid") = false ∧
    truthy (dget cxCoordOnly "buildingId") = false ∧
    (normalizeResults clk0 [PyVal.dict cxCoordOnly]).length = 1 := by decide

/-- C3, amended: any truthy address — and equally any truthy coordinate
object — passes the shape gate on its own; the address+price record is
accepted and emitted, and the coordinate-only record is *also* accepted
and emitted (with absent address and prices), rather than rejected. -/
theorem C3_amended :
    (∀ d : PyDict, truthy (dget d "address") = true → passesShapeGate d = true) ∧
    (∀ d : PyDict, truthy (dget d "latLong") = true → passesShapeGate d = true) ∧
    (normalizeResults clk0 [PyVal.dict cxAddrPrice]).map
      (fun l => (l.address, l.sale_price, l.zpid)) =
      [(Option.some "1 Main St", Option.some 450000, Option.some "None")] ∧
    (normalizeResults clk0 [PyVal.dict cxCoordOnly]).map
      (fun l => (l.latitude, l.longitude)) = [(Option.some 1, Option.some 2)] ∧
    (normalizeResults clk0 [PyVal.dict cxCoordOnly]).map
      (fun l => (l.address, l.sale_price, l.rental_price)) =
      [(Option.none, Option.none, Option.none)] := by
  refine ⟨?_, ?_, by decide, by decide, by decide⟩
  · intro d h
    unfold passesShapeGate
    rw [h]
    rfl
  · intro d h
    unfold passesShapeGate
    rw [h]
    simp

/-- C3, witness: the shape-gate conjuncts instantiated at the two concrete
records. -/
theorem C3_amended_witness :
    passesShapeGate cxAddrPrice = true ∧ passesShapeGate cxCoordOnly = true := by
  exact ⟨C3_amended.1 cxAddrPrice (by decide), C3_amended.2.1 cxCoordOnly (by decide)⟩

/-
  Claim C4.
-/

/-- C4: `normalize_results` is total over the batch — a malformed (falsy
or non-dict) record is a no-op on the loop state, a record whose
processing raises is equally a no-op (the `try`/`except` catches
everything), neither disturbs the handling of earlier or later records,
the empty batch yields the empty list, and an all-rejected batch yields
the empty list, a successful (non-error) outcome. -/
theorem C4_batch_resilience :
    (∀ (clock : Nat → Nat) (xs ys : List PyVal) (r : PyVal),
      (truthy r && isDictV r) = false →
      normalizeResults clock (xs ++ r :: ys) = normalizeResults clock (xs ++ ys)) ∧
    (∀ (clock : Nat → Nat) (xs ys : List PyVal) (r : PyVal) (e : PyErr),
      processItem (asDict r) = .error e →
      normalizeResults clock (xs ++ r :: ys) = normalizeResults clock (xs ++ ys)) ∧
    (∀ clock : Nat → Nat, normalizeResults clock [] = []) ∧
    (∀ (clock : Nat → Nat) (items : List PyVal),
      (∀ r ∈ items, (truthy r && isDictV r) = false) →
      normalizeResults clock items = []) := by
  refine ⟨?_, ?_, fun clock => rfl, ?_⟩
  · intro clock xs ys r h
    exact normalizeResults_insert_skip clock xs ys r
      (fun st => normStep_skip_malformed clock st r h)
  · intro clock xs ys r e h
    exact normalizeResults_insert_skip clock xs ys r
      (fun st => normStep_skip_error clock st r e h)
  · intro clock items h
    have hfold : ∀ (its : List PyVal), (∀ r ∈ its, (truthy r && isDictV r) = false) →
        ∀ st : NormState, its.foldl (normStep clock) st = st := by
      intro its
      induction its with
      | nil => exact fun _ st => rfl
      | cons i rest ih =>
        intro hh st
        rw [List.foldl_cons, normStep_skip_malformed clock st i (hh i (by simp))]
        exact ih (fun r hr => hh r (by simp [hr])) st
    unfold normalizeResults
    rw [hfold items h ([], [])]

/-- C4, witness: a non-dict record in the middle of a batch changes
nothing; a record whose `statusText` is an int makes the individual path
raise `TypeError`, which is absorbed; an all-malformed batch yields `[]`. -/
theorem C4_batch_resilience_witness :
    normalizeResults clk0
      [PyVal.dict cxAddrPrice, PyVal.int 7, PyVal.dict cxZpidOnly] =
      normalizeResults clk0 [PyVal.dict cxAddrPrice, PyVal.dict cxZpidOnly] ∧
    normalizeResults clk0
      [PyVal.dict [("statusText", PyVal.int 5), ("zpid", PyVal.str "9")]] = [] ∧
    normalizeResults clk0 [PyVal.int 7, PyVal.str "", PyVal.none] = [] := by
  refine ⟨?_, ?_, ?_⟩
  · exact C4_batch_resilience.1 clk0 [PyVal.dict cxAddrPrice]
      [PyVal.dict cxZpidOnly] (PyVal.int 7) (by decide)
  · have h := C4_batch_resilience.2.1 clk0 [] []
      (PyVal.dict [("statusText", PyVal.int 5), ("zpid", PyVal.str "9")])
      .typeError rfl
    simpa using h
  · exact C4_batch_resilience.2.2.2 clk0 [PyVal.int 7, PyVal.str "", PyVal.none]
      (by decide)

/-
  Claim C7.
-/

theorem eraseTs_ofCore (c : ListingCore) (t : Nat) :
    eraseTs (Listing.ofCore c t) = Listing.ofCore c 0 := rfl

/-- One step of the loop run under two different clocks: the outputs agree
up to timestamps, and the key sets agree exactly. -/
theorem normStep_rel (c1 c2 : Nat → Nat) (s1 s2 : NormState) (item : PyVal)
    (h1 : s1.1.map eraseTs = s2.1.map eraseTs) (h2 : s1.2 = s2.2) :
    (normStep c1 s1 item).1.map eraseTs = (normStep c2 s2 item).1.map eraseTs ∧
    (normStep c1 s1 item).2 = (normStep c2 s2 item).2 := by
  unfold normStep
  by_cases g1 : (truthy item && isDictV item) = true
  · rw [if_pos g1, if_pos g1]
    by_cases g2 : passesShapeGate (asDict item) = true
    · rw [if_pos g2, if_pos g2]
      cases hp : processItem (asDict item) with
      | error e => exact ⟨h1, h2⟩
      | ok o =>
        cases o with
        | none => exact ⟨h1, h2⟩
        | some nd =>
          dsimp only
          by_cases g3 : ndKey nd ∈ s1.2
          · rw [if_pos g3, if_pos (h2 ▸ g3)]
            exact ⟨h1, h2⟩
          · rw [if_neg g3, if_neg (h2 ▸ g3)]
            unfold mkListing
            cases hv : validateCore nd with
            | none =>
              simp only [hv, Option.map_none']
              exact ⟨h1, h2⟩
            | some c =>
              simp only [hv, Option.map_some']
              refine ⟨?_, by rw [h2]⟩
              rw [List.map_append, List.map_append, h1]
              simp [eraseTs_ofCore]
    · rw [if_neg g2, if_neg g2]
      exact ⟨h1, h2⟩
  · rw [if_neg g1, if_neg g1]
    exact ⟨h1, h2⟩

theorem foldl_rel (c1 c2 : Nat → Nat) :
    ∀ (items : List PyVal) (s1 s2 : NormState),
      s1.1.map eraseTs = s2.1.map eraseTs → s1.2 = s2.2 →
      (items.foldl (normStep c1) s1).1.map eraseTs =
        (items.foldl (normStep c2) s2).1.map eraseTs ∧
      (items.foldl (normStep c1) s1).2 = (items.foldl (normStep c2) s2).2 := by
  intro items
  induction items with
  | nil => exact fun s1 s2 h1 h2 => ⟨h1, h2⟩
  | cons i rest ih =>
    intro s1 s2 h1 h2
    obtain ⟨h1', h2'⟩ := normStep_rel c1 c2 s1 s2 i h1 h2
    exact ih (normStep c1 s1 i) (normStep c2 s2 i) h1' h2'

/-- C7, counterexample: two invocations of `normalize_results` on the same
batch at different clock readings (the processing timestamp is
`datetime.now`, taken at construction time) produce Listing sequences that
are *not* equal field-for-field — they differ exactly in the timestamp
field. -/
theorem C7_counterexample :
    normalizeResults clk0 [PyVal.dict cxAddrPrice] ≠
      normalizeResults clk1 [PyVal.dict cxAddrPrice] ∧
    (normalizeResults clk0 [PyVal.dict cxAddrPrice]).map eraseTs =
      (normalizeResults clk1 [PyVal.dict cxAddrPrice]).map eraseTs := by decide

/-- C7, amended: normalizing the same raw batch twice yields identical,
order-preserving Listing sequences in every field except the processing
timestamp: outputs of runs under arbitrary clocks agree once timestamps
are erased (and are fully identical when the clock readings coincide). -/
theorem C7_amended (c1 c2 : Nat → Nat) (items : List PyVal) :
    (normalizeResults c1 items).map eraseTs =
      (normalizeResults c2 items).map eraseTs := by
  exact (foldl_rel c1 c2 items ([], []) ([], []) rfl rfl).1

/-
  Claim C10.
-/

/-- C10: the individual path stringifies `item.get("zpid")`, so a record
with no `zpid` key yields the literal string `"None"` as identifier; the
validated Listing carries that string, and no emitted Listing ever has an
absent identifier. -/
theorem C10_zpid_stringified :
    (∀ (d : PyDict) (nd : NormData), processIndividual d = .ok nd →
      nd.zpid = pyStr (dget d "zpid")) ∧
    (∀ d : PyDict, hasKey d "zpid" = false → ∀ nd : NormData,
      processIndividual d = .ok nd → nd.zpid = "None") ∧
    (∀ (nd : NormData) (t : Nat) (l : Listing), mkListing t nd = Option.some l →
      l.zpid = Option.some nd.zpid) ∧
    (∀ (clock : Nat → Nat) (items : List PyVal) (l : Listing),
      l ∈ normalizeResults clock items → l.zpid ≠ Option.none) := by
  refine ⟨?_, ?_, ?_, ?_⟩
  · exact fun d nd h => processIndividual_zpid h
  · intro d hk nd h
    rw [processIndividual_zpid h, dget_of_not_hasKey hk]
    rfl
  · intro nd t l h
    obtain ⟨c, hc, rfl⟩ := mkListing_some h
    have : (Listing.ofCore c t).zpid = c.zpid := rfl
    rw [this, (validateCore_fields hc).2.2.2.2.2.1]
  · intro clock items l h
    exact ((normalizeResults_good clock items).1 l h).2.2.2

/-- C10, witness: the zpid-less record, processed concretely. -/
theorem C10_zpid_stringified_witness :
    processIndividual cxPriceOnly = .ok cxNdPriceOnly ∧
    cxNdPriceOnly.zpid = "None" ∧ hasKey cxPriceOnly "zpid" = false := by
  have h1 : processIndividual cxPriceOnly = .ok cxNdPriceOnly := rfl
  exact ⟨h1, C10_zpid_stringified.2.1 cxPriceOnly (by decide) cxNdPriceOnly h1,
    by decide⟩

end ZillowAgent
